import Mathlib

/-
Verification development for the certiflow-ms-worker document-processing
pipeline.  The Python services (PDF text extraction, OpenAI structured
extraction, Excel report generation, orchestration) are embedded as
executable Lean definitions; external effects (the PDF parsing library,
the network call, the filesystem and the clock) are modelled as explicit
environment values handed to each function.
-/

/-- A JSON-like value, as produced by json.loads: the value space of the
StructuredRecord flowing through the pipeline.  Numbers are modelled as
integers. -/
inductive JValue where
  | null : JValue
  | bool (b : Bool) : JValue
  | num (n : Int) : JValue
  | str (s : String) : JValue
  | arr (xs : List JValue) : JValue
  | obj (fields : List (String × JValue)) : JValue

/-- Python truthiness of a JSON-like value (bool(v)). -/
def pyTruthy : JValue → Bool
  | .null => false
  | .bool b => b
  | .num n => n != 0
  | .str s => s != ""
  | .arr xs => !xs.isEmpty
  | .obj fs => !fs.isEmpty

mutual

/-- Python repr of a JSON-like value (keys and strings quoted, None/True/False
spelled the Python way); string escaping is not modelled. -/
def pyRepr : JValue → String
  | .null => "None"
  | .bool b => if b then "True" else "False"
  | .num n => toString n
  | .str s => "\x27" ++ s ++ "\x27"
  | .arr xs => "[" ++ pyReprArr xs ++ "]"
  | .obj fs => "\x7b" ++ pyReprFields fs ++ "\x7d"

/-- Comma-separated reprs of the elements of a list value. -/
def pyReprArr : List JValue → String
  | [] => ""
  | [x] => pyRepr x
  | x :: y :: xs => pyRepr x ++ ", " ++ pyReprArr (y :: xs)

/-- Comma-separated key: value reprs of the fields of an object value. -/
def pyReprFields : List (String × JValue) → String
  | [] => ""
  | [(k, v)] => "\x27" ++ k ++ "\x27: " ++ pyRepr v
  | (k, v) :: f :: fs => "\x27" ++ k ++ "\x27: " ++ pyRepr v ++ ", " ++ pyReprFields (f :: fs)

end

/-- Python str() of a JSON-like value: a bare string prints without quotes,
everything else prints as its repr. -/
def pyStr : JValue → String
  | .str s => s
  | v => pyRepr v

/-- Python type(v).__name__ for a parsed JSON value. -/
def typeName : JValue → String
  | .null => "NoneType"
  | .bool _ => "bool"
  | .num _ => "int"
  | .str _ => "str"
  | .arr _ => "list"
  | .obj _ => "dict"

/-- Python str.startswith: character-list prefix test. -/
def strStartsWith (s pre : String) : Bool :=
  pre.data.isPrefixOf s.data

/-- Dictionary read, d.get(key): the value at the first matching key. -/
def lookupField : List (String × JValue) → String → Option JValue
  | [], _ => none
  | (k, v) :: fs, key => if k = key then some v else lookupField fs key

/-- Dictionary write, d[key] = v: overwrite the value in place when the key is
present, append a new entry otherwise (Python dict assignment semantics). -/
def setField (fs : List (String × JValue)) (key : String) (v : JValue) : List (String × JValue) :=
  if fs.any (fun kv => kv.1 = key) then
    fs.map (fun kv => if kv.1 = key then (key, v) else kv)
  else
    fs ++ [(key, v)]

/-- The repository's exception taxonomy (app/models/exceptions.py), message
attached. -/
inductive AppError where
  | pdfProcessingError (msg : String) : AppError
  | openAIError (msg : String) : AppError
  | excelGenerationError (msg : String) : AppError
  | templateNotFoundError (msg : String) : AppError
  | fileValidationError (msg : String) : AppError
deriving DecidableEq, Repr

/-- The outcome of page.extract_text() on one page of an opened document:
either a text string, or a raised per-page extraction exception. -/
inductive PageResult where
  | ok (text : String) : PageResult
  | failed : PageResult
deriving DecidableEq, Repr

/-- A character stripped by Python str.strip(): the ASCII whitespace set. -/
def wsChar (c : Char) : Bool :=
  c == ' ' || c == '\t' || c == '\n' || c == '\r' || c == '\x0b' || c == '\x0c'

/-- Python str.strip(): drop leading and trailing whitespace characters. -/
def pyStrip (s : String) : String :=
  String.mk (((s.data.dropWhile wsChar).reverse.dropWhile wsChar).reverse)

/-- The human-readable page marker inserted before each page's text
(pdf_service.py line "--- Página {page_num + 1} ---"). -/
def pageMarker (pageNum : Nat) : String :=
  "\n--- Página " ++ toString pageNum ++ " ---\n"

/-- The text one page contributes to the accumulator: marker plus text when
extraction yielded a truthy (non-empty) string, nothing when it yielded an
empty string or raised (the per-page except/continue branch). -/
def pageSegment (idx : Nat) (p : PageResult) : String :=
  match p with
  | .ok t => if t ≠ "" then pageMarker (idx + 1) ++ t else ""
  | .failed => ""

/-- The extracted_text accumulation loop of extract_text_from_pdf: pages are
visited in order, the enumerate counter starting at idx. -/
def extractedRaw : Nat → List PageResult → String
  | _, [] => ""
  | idx, p :: ps => pageSegment idx p ++ extractedRaw (idx + 1) ps

/-- PDFService.extract_text_from_pdf.  The PyPDF2 view of the byte stream is
the environment: none when PdfReader raises (unopenable bytes), some pages
when it opens with those per-page outcomes.  Errors raised inside the try
block are re-wrapped by the final except handler, hence the message
prefixes. -/
def extract_text_from_pdf (doc : Option (List PageResult)) : Except AppError String :=
  match doc with
  | none => .error (.pdfProcessingError "Error leyendo el archivo PDF")
  | some pages =>
    if pages.length = 0 then
      .error (.pdfProcessingError "Error procesando PDF: El PDF no contiene páginas")
    else
      let extracted := extractedRaw 0 pages
      if pyStrip extracted = "" then
        .error (.pdfProcessingError "Error procesando PDF: No se pudo extraer texto del PDF")
      else
        .ok (pyStrip extracted)

/-- PDFService.validate_pdf: PdfReader on the bytes, True iff it opens. -/
def validate_pdf (doc : Option (List PageResult)) : Bool :=
  doc.isSome

/-- A page whose extraction yields a truthy (non-empty) text string. -/
def pageHasText : PageResult → Bool
  | .ok t => t ≠ ""
  | .failed => false

/-- Whether an Except result is a success. -/
def exceptIsOk {ε α : Type} : Except ε α → Bool
  | .ok _ => true
  | .error _ => false

/-- Whether a failed Except result carries a PDFProcessingError (and a success
vacuously passes). -/
def pdfErrorKindOk : Except AppError String → Bool
  | .ok _ => true
  | .error (.pdfProcessingError _) => true
  | .error _ => false

/-- The outcome of the chat.completions.create round trip followed by
json.loads on the returned content: apiFailure when the client call raises
(network error, timeout), response with the json.loads outcome otherwise
(none when the content is not parseable as JSON, some v when it parses to v)
together with response.usage.total_tokens when reported. -/
inductive ChatOutcome where
  | apiFailure (detail : String) : ChatOutcome
  | response (parsed : Option JValue) (usageTokens : Option Int) : ChatOutcome

/-- The environment of one OpenAIService.extract_structured_data call: the
two time.time() readings around the request and the service outcome.
Clock readings are modelled as integers. -/
structure OpenAIEnv where
  t1 : Int
  t2 : Int
  outcome : ChatOutcome
  model : String

/-- OpenAIService._build_extraction_prompt: the user payload embedding the
input text and, when a guidance schema is supplied, its serialized form. -/
def build_extraction_prompt (text : String) (schema : Option JValue) : String :=
  let base := "\nAnaliza el siguiente texto y extrae información relevante en formato JSON:\n\nTEXTO:\n"
    ++ text
    ++ "\n\nINSTRUCCIONES:\n- Extrae información como: fechas, nombres de empresas, contactos, direcciones, números, etc.\n- Organiza la información de manera lógica en un objeto JSON\n- Si no encuentras información específica, usa null\n- Mantén los datos originales sin modificar\n"
  let base := match schema with
    | some s => base ++ "\nUSA ESTE SCHEMA COMO GUÍA:\n" ++ pyRepr s
    | none => base
  base ++ "\nDevuelve SOLO el JSON, sin explicaciones adicionales."

/-- The _metadata value the service attaches: processing_time is the elapsed
interval between the two clock readings, tokens_used is null when the
service reported no usage. -/
def serviceMetadata (env : OpenAIEnv) (usageTokens : Option Int) : JValue :=
  .obj [("processing_time", .num (env.t2 - env.t1)),
        ("model_used", .str env.model),
        ("tokens_used", match usageTokens with | some n => .num n | none => .null)]

/-- OpenAIService.extract_structured_data.  A json.JSONDecodeError is caught
by its dedicated handler; every other raised exception — including the
TypeError from the item assignment extracted_data["_metadata"] = ... when
json.loads produced a non-dict root — falls to the generic handler; both
handlers raise OpenAIError. -/
def extract_structured_data (env : OpenAIEnv) (text : String) (schema : Option JValue) : Except AppError JValue :=
  let _prompt := build_extraction_prompt text schema
  match env.outcome with
  | .apiFailure detail =>
      .error (.openAIError ("Error comunicándose con OpenAI: " ++ detail))
  | .response none _ =>
      .error (.openAIError "Respuesta inválida de OpenAI: contenido no es JSON")
  | .response (some v) usageTokens =>
      match v with
      | .obj fields => .ok (.obj (setField fields "_metadata" (serviceMetadata env usageTokens)))
      | _ => .error (.openAIError "Error comunicándose con OpenAI: TypeError en asignación de _metadata")

/-- Whether a parsed JSON value is object-shaped at the top level. -/
def jIsObj : JValue → Bool
  | .obj _ => true
  | _ => false

/-- The method names defined by class OpenAIService in
app/services/openai_service.py. -/
def openAIServiceMethods : List String :=
  ["__init__", "extract_structured_data", "_build_extraction_prompt", "test_connection"]

/-- One worksheet.cell(row=…, column=…, value=…) write. -/
structure CellWrite where
  row : Nat
  col : Nat
  val : String
deriving DecidableEq, Repr

/-- The aspect of an openpyxl workbook the population logic inspects: whether
cell(1, 1) of the selected worksheet holds one of the recognized headers
"Campo", "Dato", "Key" (ExcelService._find_start_row). -/
structure Workbook where
  hasHeader : Bool
deriving DecidableEq, Repr

/-- ExcelService._create_default_workbook: a fresh workbook whose first row
is the styled header Campo / Valor / Tipo / Confianza, so cell(1, 1) holds
"Campo". -/
def create_default_workbook : Workbook :=
  { hasHeader := true }

/-- An exception travelling inside ExcelService.generate_excel_report's try
block: either one of the repository's own exceptions, or a raw Python
exception such as the AttributeError from iterating a non-dict. -/
inductive PyExc where
  | appError (e : AppError) : PyExc
  | typeError (detail : String) : PyExc
deriving DecidableEq, Repr

/-- str(e) of an in-flight exception, as interpolated into wrapper messages. -/
def pyExcMsg : PyExc → String
  | .appError (.pdfProcessingError m) => m
  | .appError (.openAIError m) => m
  | .appError (.excelGenerationError m) => m
  | .appError (.templateNotFoundError m) => m
  | .appError (.fileValidationError m) => m
  | .typeError d => d

/-- The environment of one ExcelService call: the template stems present in
the templates directory, whether load_workbook succeeds on an existing
template file, what cell(1, 1) of a loaded template's selected sheet holds,
whether workbook.save succeeds, and the strftime timestamp. -/
structure ExcelEnv where
  templates : List String
  templateHasHeader : Bool
  loadOk : Bool
  saveOk : Bool
  timestamp : String

/-- ExcelService._load_template: TemplateNotFoundError when no
{template_name}.xlsx exists in the templates directory, ExcelGenerationError
when load_workbook raises on the existing file. -/
def load_template (env : ExcelEnv) (templateName : String) : Except PyExc Workbook :=
  if templateName ∈ env.templates then
    if env.loadOk then .ok { hasHeader := env.templateHasHeader }
    else .error (.appError (.excelGenerationError ("Error cargando plantilla " ++ templateName)))
  else
    .error (.appError (.templateNotFoundError ("Plantilla no encontrada: " ++ templateName)))

/-- The column-5/6 pair rows of ExcelService._add_metadata, one per metadata
field, starting at the given row. -/
def metaPairCells : Nat → List (String × JValue) → List CellWrite
  | _, [] => []
  | r, (k, v) :: fs => ⟨r, 5, k⟩ :: ⟨r, 6, pyStr v⟩ :: metaPairCells (r + 1) fs

/-- ExcelService._add_metadata on data.get("_metadata", {}): nothing when the
key is absent or its value is falsy; a title cell at (1, 5) and one key/value
pair per field from row 2 when it is a dict; metadata.items() raises
AttributeError when it is a truthy non-dict. -/
def add_metadata : Option JValue → Except PyExc (List CellWrite)
  | none => .ok []
  | some m =>
    if pyTruthy m = false then .ok []
    else
      match m with
      | .obj fs => .ok (⟨1, 5, "Metadatos del Procesamiento"⟩ :: metaPairCells 2 fs)
      | _ => .error (.typeError "AttributeError: items")

/-- ExcelService._add_dict_data: one row per immediate child of the nested
dict, key dotted as parent.child, value stringified, threading the current
row counter. -/
def add_dict_data (parentKey : String) : List (String × JValue) → Nat → List CellWrite × Nat
  | [], row => ([], row)
  | (k, v) :: fs, row =>
    let fullKey := parentKey ++ "." ++ k
    let rest := add_dict_data parentKey fs (row + 1)
    (⟨row, 1, fullKey⟩ :: ⟨row, 2, pyStr v⟩ :: ⟨row, 3, typeName v⟩ :: rest.1, rest.2)

/-- ExcelService._add_list_data: one row per list element, key indexed as
parent[i], threading the current row counter and the enumerate index. -/
def add_list_data (parentKey : String) : List JValue → Nat → Nat → List CellWrite × Nat
  | [], row, _ => ([], row)
  | v :: vs, row, i =>
    let fullKey := parentKey ++ "[" ++ toString i ++ "]"
    let rest := add_list_data parentKey vs (row + 1) (i + 1)
    (⟨row, 1, fullKey⟩ :: ⟨row, 2, pyStr v⟩ :: ⟨row, 3, typeName v⟩ :: rest.1, rest.2)

/-- The field loop of ExcelService._populate_workbook: keys starting with an
underscore are skipped, dict values expand through _add_dict_data, list
values through _add_list_data, anything else becomes a single scalar row. -/
def populate_loop : List (String × JValue) → Nat → List CellWrite × Nat
  | [], row => ([], row)
  | (k, v) :: fs, row =>
    if strStartsWith k "_" then populate_loop fs row
    else
      let step : List CellWrite × Nat :=
        match v with
        | .obj sub => add_dict_data k sub row
        | .arr xs => add_list_data k xs row 0
        | _ => ([⟨row, 1, k⟩, ⟨row, 2, pyStr v⟩, ⟨row, 3, typeName v⟩], row + 1)
      let rest := populate_loop fs step.2
      (step.1 ++ rest.1, rest.2)

/-- ExcelService._populate_workbook: write the metadata side region first,
find the first data row (2 under a recognized header, 1 otherwise), then run
the field loop. -/
def populate_workbook (wb : Workbook) (data : List (String × JValue)) : Except PyExc (List CellWrite) := do
  let metaCells ← add_metadata (lookupField data "_metadata")
  let startRow := if wb.hasHeader then 2 else 1
  pure (metaCells ++ (populate_loop data startRow).1)

/-- ExcelService.generate_excel_report: choose the template or the default
workbook, populate it, save it under the timestamped name — and wrap ANY
exception raised along the way, the TemplateNotFoundError from _load_template
included, into a fresh ExcelGenerationError (the blanket except handler). -/
def generate_excel_report (env : ExcelEnv) (data : List (String × JValue)) (templateName : Option String) : Except AppError String :=
  let body : Except PyExc String := do
    let wb ← match templateName with
      | some name => load_template env name
      | none => pure create_default_workbook
    let _cells ← populate_workbook wb data
    if env.saveOk then
      pure ("output/certiflow_report_" ++ env.timestamp ++ ".xlsx")
    else
      throw (.typeError "save failed")
  match body with
  | .ok path => .ok path
  | .error e => .error (.excelGenerationError ("Error generando archivo Excel: " ++ pyExcMsg e))

/-- The artifact files a generate_excel_report call leaves on disk: the saved
path on success, nothing when any step before or at the save raised. -/
def files_written (env : ExcelEnv) (data : List (String × JValue)) (templateName : Option String) : List String :=
  match generate_excel_report env data templateName with
  | .ok path => [path]
  | .error _ => []

/-- Whether the _metadata entry (if any) is one _add_metadata accepts without
raising: absent, falsy, or a dict. -/
def metadata_ok : Option JValue → Bool
  | none => true
  | some m => if pyTruthy m = false then true else jIsObj m

/-- The layout of a list of flat (key, value, type) rows as cells in columns
1–3 of consecutive worksheet rows starting at the given row. -/
def cellsOfRows : Nat → List (String × String × String) → List CellWrite
  | _, [] => []
  | r, (k, v, t) :: rest => ⟨r, 1, k⟩ :: ⟨r, 2, v⟩ :: ⟨r, 3, t⟩ :: cellsOfRows (r + 1) rest

/-- Restates the spec's flattening, adjusted one level deep: scalar values
give one row; a nested mapping gives one row per immediate child under a
dotted key (a deeper child is emitted stringified, not expanded); a list
gives one row per element under an indexed key; underscore-prefixed keys,
the reserved _metadata key included, give no rows. -/
def specFlatten : List (String × JValue) → List (String × String × String)
  | [] => []
  | (k, v) :: fs =>
    (if strStartsWith k "_" then []
     else
       match v with
       | .obj sub => sub.map (fun c => (k ++ "." ++ c.1, pyStr c.2, typeName c.2))
       | .arr xs => (xs.enum).map (fun c => (k ++ "[" ++ toString c.1 ++ "]", pyStr c.2, typeName c.2))
       | v => [(k, pyStr v, typeName v)])
    ++ specFlatten fs

/-- One observable external-effect step of an Orchestrator.process_file run:
the PDF validation pre-check, the full text extraction, the network request
to the extraction service, or a report render. -/
inductive StageCall where
  | validatePdf : StageCall
  | extractText : StageCall
  | openaiRequest : StageCall
  | renderExcel : StageCall
deriving DecidableEq, Repr

/-- The environment of one Orchestrator.process_file call: the PyPDF2 view of
the uploaded bytes (shared by the validate_pdf pre-check and the later full
extraction, which re-parse the same bytes), the OpenAI call environment, and
the orchestrator's own two time.time() readings. -/
structure OrchEnv where
  pdf : Option (List PageResult)
  oenv : OpenAIEnv
  tStart : Int
  tEnd : Int

/-- The dict Orchestrator.process_file returns on success.  The source builds
it with exactly the keys data and metadata: the excel_path key of the
docstring is never produced, because the whole Excel block is commented out;
that absence is modelled as a field fixed at none. -/
structure OrchResult where
  data : JValue
  processing_time : Int
  filename : Option String
  excelPath : Option String

/-- Orchestrator.process_file: validate the PDF (raising PDFProcessingError
when the pre-check fails, before anything else runs), extract the text,
extract structured data, and assemble the result.  template_name and
output_format are accepted but never used: the render stage is commented out
in the source, so no StageCall.renderExcel is ever emitted and the result
never carries an artifact path.  The second component records which stages
ran, in order. -/
def process_file (env : OrchEnv) (filename : Option String)
    (templateName : Option String) (outputFormat : String) :
    Except AppError OrchResult × List StageCall :=
  let _ := templateName
  let _ := outputFormat
  if validate_pdf env.pdf = false then
    (.error (.pdfProcessingError "El archivo no es un PDF válido"), [.validatePdf])
  else
    match extract_text_from_pdf env.pdf with
    | .error e => (.error e, [.validatePdf, .extractText])
    | .ok text =>
      match extract_structured_data env.oenv text none with
      | .error e => (.error e, [.validatePdf, .extractText, .openaiRequest])
      | .ok structured =>
        (.ok { data := structured
             , processing_time := env.tEnd - env.tStart
             , filename := filename
             , excelPath := none },
         [.validatePdf, .extractText, .openaiRequest])

lemma pyStrip_eq_empty_iff (s : String) :
    pyStrip s = "" ↔ ∀ c ∈ s.data, wsChar c := by
  unfold pyStrip
  rw [String.ext_iff]
  show ((s.data.dropWhile wsChar).reverse.dropWhile wsChar).reverse = [] ↔ _
  rw [List.reverse_eq_nil_iff, List.dropWhile_eq_nil_iff]
  constructor
  · intro h c hc
    have hsplit := List.takeWhile_append_dropWhile (p := wsChar) (l := s.data)
    rw [← hsplit] at hc
    rcases List.mem_append.mp hc with htk | hdr
    · exact List.mem_takeWhile_imp htk
    · exact h c (List.mem_reverse.mpr hdr)
  · intro h c hc
    have hc' := List.mem_reverse.mp hc
    have : c ∈ s.data := by
      have hsplit := List.takeWhile_append_dropWhile (p := wsChar) (l := s.data)
      rw [← hsplit]
      exact List.mem_append.mpr (Or.inr hc')
    exact h c this

lemma pyStrip_ne_empty_of_mem {s : String} {c : Char}
    (hc : c ∈ s.data) (hw : wsChar c = false) : pyStrip s ≠ "" := by
  intro h
  have := (pyStrip_eq_empty_iff s).mp h c hc
  rw [hw] at this
  exact Bool.false_ne_true this

lemma extractedRaw_eq_empty {ps : List PageResult}
    (h : ∀ p ∈ ps, pageHasText p = false) : ∀ n, extractedRaw n ps = "" := by
  induction ps with
  | nil => intro n; rfl
  | cons p ps ih =>
    intro n
    have hp : pageSegment n p = "" := by
      have := h p (List.mem_cons_self p ps)
      cases p with
      | failed => rfl
      | ok t =>
        simp only [pageHasText, decide_eq_false_iff_not, Decidable.not_not] at this
        simp [pageSegment, this]
    have hrest : extractedRaw (n + 1) ps = "" :=
      ih (fun q hq => h q (List.mem_cons_of_mem p hq)) (n + 1)
    show pageSegment n p ++ extractedRaw (n + 1) ps = ""
    rw [hp, hrest]
    rfl

lemma dash_mem_pageMarker (m : Nat) : '-' ∈ (pageMarker m).data := by
  unfold pageMarker
  rw [String.data_append, String.data_append]
  exact List.mem_append.mpr (Or.inl (List.mem_append.mpr (Or.inl (by decide))))

lemma dash_mem_extractedRaw {ps : List PageResult}
    (h : ∃ p ∈ ps, pageHasText p = true) : ∀ n, '-' ∈ (extractedRaw n ps).data := by
  induction ps with
  | nil => rcases h with ⟨p, hp, _⟩; cases hp
  | cons p ps ih =>
    intro n
    show '-' ∈ (pageSegment n p ++ extractedRaw (n + 1) ps).data
    rw [String.data_append]
    rcases h with ⟨q, hq, hqt⟩
    rcases List.mem_cons.mp hq with rfl | hmem
    · cases q with
      | failed => cases hqt
      | ok t =>
        have ht : t ≠ "" := by
          simpa [pageHasText] using hqt
        have hseg : pageSegment n (.ok t) = pageMarker (n + 1) ++ t := by
          simp [pageSegment, ht]
        rw [hseg, String.data_append]
        exact List.mem_append.mpr
          (Or.inl (List.mem_append.mpr (Or.inl (dash_mem_pageMarker (n + 1)))))
    · exact List.mem_append.mpr (Or.inr (ih ⟨q, hmem, hqt⟩ (n + 1)))

/-- Claim C2 (amended): extract_text_from_pdf succeeds exactly when some page
yields a non-empty text string — so a zero-page document and a document whose
every page yields empty-or-failed extraction both fail, and every failure is
a PDFProcessingError (DocumentParseError) — but a document whose pages yield
only whitespace succeeds, because the inserted page markers contribute
non-whitespace characters before the final trim check. -/
theorem extract_text_success_iff (pages : List PageResult) :
    exceptIsOk (extract_text_from_pdf (some pages)) = pages.any pageHasText ∧
    pdfErrorKindOk (extract_text_from_pdf (some pages)) = true := by
  cases hany : pages.any pageHasText with
  | true =>
    rcases List.any_eq_true.mp hany with ⟨p, hp, hpt⟩
    have hne : ¬ pages.length = 0 := by
      intro h0
      rw [List.length_eq_zero] at h0
      subst h0
      cases hp
    have hdash := dash_mem_extractedRaw ⟨p, hp, hpt⟩ 0
    have hns : ¬ pyStrip (extractedRaw 0 pages) = "" :=
      pyStrip_ne_empty_of_mem hdash (by decide)
    have hres : extract_text_from_pdf (some pages) = .ok (pyStrip (extractedRaw 0 pages)) := by
      simp only [extract_text_from_pdf]
      rw [if_neg hne, if_neg hns]
    rw [hres]
    exact ⟨rfl, rfl⟩
  | false =>
    have hall : ∀ p ∈ pages, pageHasText p = false := by
      intro p hp
      have := List.any_eq_false.mp hany p hp
      exact Bool.eq_false_iff.mpr this
    have hraw : extractedRaw 0 pages = "" := extractedRaw_eq_empty hall 0
    have hstrip : pyStrip (extractedRaw 0 pages) = "" := by
      rw [hraw]
      rfl
    by_cases h0 : pages.length = 0
    · have hres : extract_text_from_pdf (some pages) =
          .error (.pdfProcessingError "Error procesando PDF: El PDF no contiene páginas") := by
        simp only [extract_text_from_pdf]
        rw [if_pos h0]
      rw [hres]
      exact ⟨rfl, rfl⟩
    · have hres : extract_text_from_pdf (some pages) =
          .error (.pdfProcessingError "Error procesando PDF: No se pudo extraer texto del PDF") := by
        simp only [extract_text_from_pdf]
        rw [if_neg h0, if_pos hstrip]
      rw [hres]
      exact ⟨rfl, rfl⟩

/-- Claim C2 counterexample: a document whose single page yields the
whitespace-only text " " is claimed to fail with DocumentParseError, but the
code succeeds on it and returns the bare page marker. -/
theorem whitespace_page_extracts_ok :
    extract_text_from_pdf (some [PageResult.ok " "]) =
      Except.ok "--- Página 1 ---" := by rfl

/-- Restates the spec's page-failure isolation wording: the surviving pages'
segments in page order, each the original 1-based page marker followed by the
page's text, a failed page contributing no segment. -/
def survivorSegments : Nat → List PageResult → List String
  | _, [] => []
  | idx, .ok t :: ps => (pageMarker (idx + 1) ++ t) :: survivorSegments (idx + 1) ps
  | idx, .failed :: ps => survivorSegments (idx + 1) ps

/-- Concatenation of a list of strings in order. -/
def strConcat : List String → String
  | [] => ""
  | s :: ss => s ++ strConcat ss

lemma empty_append_str (s : String) : "" ++ s = s := by
  apply String.ext
  rw [String.data_append]
  rfl

lemma extractedRaw_eq_concat {ps : List PageResult}
    (h : ∀ p ∈ ps, p ≠ .ok "") :
    ∀ n, extractedRaw n ps = strConcat (survivorSegments n ps) := by
  induction ps with
  | nil => intro n; rfl
  | cons p ps ih =>
    intro n
    have hrest := ih (fun q hq => h q (List.mem_cons_of_mem p hq)) (n + 1)
    cases p with
    | failed =>
      show pageSegment n .failed ++ extractedRaw (n + 1) ps = _
      show "" ++ extractedRaw (n + 1) ps = strConcat (survivorSegments (n + 1) ps)
      rw [empty_append_str]
      exact hrest
    | ok t =>
      have ht : t ≠ "" := by
        intro h0
        exact h (.ok t) (List.mem_cons_self _ _) (by rw [h0])
      show pageSegment n (.ok t) ++ extractedRaw (n + 1) ps = _
      have hseg : pageSegment n (.ok t) = pageMarker (n + 1) ++ t := by
        simp [pageSegment, ht]
      rw [hseg, hrest]
      rfl

lemma extractedRaw_set_failed_blank {ps : List PageResult} :
    ∀ i n, ps.get? i = some .failed →
      extractedRaw n (ps.set i (.ok "")) = extractedRaw n ps := by
  induction ps with
  | nil => intro i n h; cases h
  | cons p ps ih =>
    intro i n h
    cases i with
    | zero =>
      have hp : p = .failed := by
        injection h
      subst hp
      show pageSegment n (.ok "") ++ extractedRaw (n + 1) ps =
        pageSegment n .failed ++ extractedRaw (n + 1) ps
      rfl
    | succ i =>
      show pageSegment n p ++ extractedRaw (n + 1) (ps.set i (.ok "")) =
        pageSegment n p ++ extractedRaw (n + 1) ps
      rw [ih i (n + 1) h]

/-- Claim C7: when one page's extraction fails and every remaining page
yields non-empty text, extract_text_from_pdf succeeds, its result is the
trim of the surviving pages' texts concatenated in page order, each prefixed
with its original 1-based page marker, and the failing page contributes
nothing — the run is indistinguishable from one where that page yielded the
empty string. -/
theorem pdf_page_failure_isolated (pages : List PageResult) (i : Nat)
    (hi : i < pages.length)
    (hfail : pages.get ⟨i, hi⟩ = .failed)
    (hrest : ∀ j, (hj : j < pages.length) → j ≠ i →
      ∃ t, pages.get ⟨j, hj⟩ = .ok t ∧ t ≠ "")
    (htwo : 2 ≤ pages.length) :
    extract_text_from_pdf (some pages) =
      .ok (pyStrip (strConcat (survivorSegments 0 pages)))
    ∧ extract_text_from_pdf (some pages) =
      extract_text_from_pdf (some (pages.set i (.ok ""))) := by
  have hnoempty : ∀ p ∈ pages, p ≠ .ok "" := by
    intro p hp h0
    rcases List.mem_iff_get.mp hp with ⟨⟨j, hj⟩, hget⟩
    by_cases hij : j = i
    · subst hij
      rw [hget] at hfail
      rw [h0] at hfail
      cases hfail
    · rcases hrest j hj hij with ⟨t, hgt, hne⟩
      rw [hget] at hgt
      rw [h0] at hgt
      injection hgt with ht
      exact hne ht.symm
  have hsurv : ∃ p ∈ pages, pageHasText p = true := by
    by_cases hi0 : i = 0
    · have h1 : 1 < pages.length := Nat.lt_of_lt_of_le Nat.one_lt_two htwo
      rcases hrest 1 h1 (by omega) with ⟨t, hget, hne⟩
      refine ⟨pages.get ⟨1, h1⟩, List.get_mem pages 1 h1, ?_⟩
      rw [hget]
      simp only [pageHasText, decide_eq_true_eq]
      exact hne
    · have h0 : 0 < pages.length := Nat.lt_of_lt_of_le Nat.zero_lt_two htwo
      rcases hrest 0 h0 (fun h => hi0 h.symm) with ⟨t, hget, hne⟩
      refine ⟨pages.get ⟨0, h0⟩, List.get_mem pages 0 h0, ?_⟩
      rw [hget]
      simp only [pageHasText, decide_eq_true_eq]
      exact hne
  have hne0 : ¬ pages.length = 0 := by omega
  have hdash := dash_mem_extractedRaw hsurv 0
  have hns : ¬ pyStrip (extractedRaw 0 pages) = "" :=
    pyStrip_ne_empty_of_mem hdash (by decide)
  have hres : extract_text_from_pdf (some pages) = .ok (pyStrip (extractedRaw 0 pages)) := by
    simp only [extract_text_from_pdf]
    rw [if_neg hne0, if_neg hns]
  constructor
  · rw [hres, extractedRaw_eq_concat hnoempty 0]
  · have hget2 : pages.get? i = some .failed := by
      rw [List.get?_eq_get hi, hfail]
    have hraw := extractedRaw_set_failed_blank i 0 hget2
    have hlen : (pages.set i (.ok "")).length = pages.length := List.length_set pages i _
    simp only [extract_text_from_pdf]
    rw [hraw, hlen]

/-- Claim C7 witness: a three-page document whose middle page fails extracts
to the trimmed concatenation of the marked first and third pages. -/
theorem pdf_page_failure_isolated_witness :
    extract_text_from_pdf
        (some [PageResult.ok "hola", PageResult.failed, PageResult.ok "mundo"]) =
      Except.ok (pyStrip (strConcat (survivorSegments 0
        [PageResult.ok "hola", PageResult.failed, PageResult.ok "mundo"]))) :=
  (pdf_page_failure_isolated
    [PageResult.ok "hola", PageResult.failed, PageResult.ok "mundo"] 1
    (by decide) (by decide)
    (by
      intro j hj hne
      have hj3 : j < 3 := by simpa using hj
      interval_cases j
      · exact ⟨"hola", rfl, by decide⟩
      · exact absurd rfl hne
      · exact ⟨"mundo", rfl, by decide⟩)
    (by decide)).1

lemma lookupField_map_replace {fs : List (String × JValue)} {key : String} {v : JValue}
    (h : fs.any (fun kv => kv.1 = key) = true) :
    lookupField (fs.map fun kv => if kv.1 = key then (key, v) else kv) key = some v := by
  induction fs with
  | nil => cases h
  | cons kv fs ih =>
    by_cases hk : kv.1 = key
    · show lookupField ((if kv.1 = key then (key, v) else kv) :: _) key = some v
      rw [if_pos hk]
      simp [lookupField]
    · show lookupField ((if kv.1 = key then (key, v) else kv) :: _) key = some v
      rw [if_neg hk]
      show (if kv.1 = key then some kv.2 else _) = some v
      rw [if_neg hk]
      apply ih
      rcases List.any_eq_true.mp h with ⟨q, hq, hqk⟩
      rcases List.mem_cons.mp hq with rfl | hmem
      · exact absurd (of_decide_eq_true hqk) hk
      · exact List.any_eq_true.mpr ⟨q, hmem, hqk⟩

lemma lookupField_append_new {fs : List (String × JValue)} {key : String} {v : JValue}
    (h : fs.any (fun kv => kv.1 = key) = false) :
    lookupField (fs ++ [(key, v)]) key = some v := by
  induction fs with
  | nil => simp [lookupField]
  | cons kv fs ih =>
    have hk : ¬ kv.1 = key := by
      intro hkk
      have := List.any_eq_false.mp h kv (List.mem_cons_self _ _)
      exact this (decide_eq_true hkk)
    show (if kv.1 = key then some kv.2 else _) = some v
    rw [if_neg hk]
    apply ih
    rw [List.any_eq_false]
    intro q hq
    exact List.any_eq_false.mp h q (List.mem_cons_of_mem _ hq)

lemma lookupField_setField_self (fs : List (String × JValue)) (key : String) (v : JValue) :
    lookupField (setField fs key v) key = some v := by
  unfold setField
  by_cases h : fs.any (fun kv => kv.1 = key) = true
  · rw [if_pos h]
    exact lookupField_map_replace h
  · rw [if_neg h]
    exact lookupField_append_new (Bool.eq_false_iff.mpr h)

lemma lookupField_map_ne {fs : List (String × JValue)} {key : String} {v : JValue}
    {k : String} (hk : k ≠ key) :
    lookupField (fs.map fun kv => if kv.1 = key then (key, v) else kv) k = lookupField fs k := by
  induction fs with
  | nil => rfl
  | cons kv fs ih =>
    by_cases hkk : kv.1 = key
    · show lookupField ((if kv.1 = key then (key, v) else kv) :: _) k = _
      rw [if_pos hkk]
      show (if key = k then some v else _) = (if kv.1 = k then some kv.2 else _)
      rw [if_neg (fun hx => hk hx.symm), if_neg (fun hx => hk (hkk ▸ hx).symm)]
      exact ih
    · show lookupField ((if kv.1 = key then (key, v) else kv) :: _) k = _
      rw [if_neg hkk]
      show (if kv.1 = k then some kv.2 else _) = (if kv.1 = k then some kv.2 else _)
      by_cases hc : kv.1 = k
      · rw [if_pos hc, if_pos hc]
      · rw [if_neg hc, if_neg hc]
        exact ih

lemma lookupField_append_ne {fs : List (String × JValue)} {key : String} {v : JValue}
    {k : String} (hk : k ≠ key) :
    lookupField (fs ++ [(key, v)]) k = lookupField fs k := by
  induction fs with
  | nil =>
    show (if key = k then some v else lookupField [] k) = lookupField [] k
    rw [if_neg (fun hx => hk hx.symm)]
  | cons kv fs ih =>
    show (if kv.1 = k then some kv.2 else _) = (if kv.1 = k then some kv.2 else _)
    by_cases hc : kv.1 = k
    · rw [if_pos hc, if_pos hc]
    · rw [if_neg hc, if_neg hc]
      exact ih

lemma lookupField_setField_ne (fs : List (String × JValue)) (key : String) (v : JValue)
    (k : String) (hk : k ≠ key) :
    lookupField (setField fs key v) k = lookupField fs k := by
  unfold setField
  by_cases h : fs.any (fun kv => kv.1 = key) = true
  · rw [if_pos h]
    exact lookupField_map_ne hk
  · rw [if_neg h]
    exact lookupField_append_ne hk

/-- Claim C10: whatever object the model returns, the service itself sets the
result's _metadata entry: the returned record is the parsed object with
_metadata overwritten by the service metadata, the _metadata lookup yields
exactly the service metadata (any model-supplied value is gone), and every
other key is untouched. -/
theorem metadata_always_overwritten (env : OpenAIEnv) (text : String)
    (schema : Option JValue) (fields : List (String × JValue)) (usage : Option Int)
    (h : env.outcome = .response (some (.obj fields)) usage) :
    extract_structured_data env text schema =
      .ok (.obj (setField fields "_metadata" (serviceMetadata env usage)))
    ∧ lookupField (setField fields "_metadata" (serviceMetadata env usage)) "_metadata" =
        some (serviceMetadata env usage)
    ∧ ∀ k, k ≠ "_metadata" →
        lookupField (setField fields "_metadata" (serviceMetadata env usage)) k =
          lookupField fields k := by
  refine ⟨?_, lookupField_setField_self fields _ _,
    fun k hk => lookupField_setField_ne fields _ _ k hk⟩
  simp only [extract_structured_data, h]

/-- Claim C10 witness: a model response that already carries a _metadata
field has it silently replaced by the service's own metadata. -/
theorem metadata_always_overwritten_witness :
    extract_structured_data
        ⟨0, 2, .response (some (.obj [("_metadata", .str "spoofed"), ("campo", .num 7)])) (some 5), "gpt-4"⟩
        "texto" none =
      .ok (.obj (setField [("_metadata", .str "spoofed"), ("campo", .num 7)] "_metadata"
        (serviceMetadata
          ⟨0, 2, .response (some (.obj [("_metadata", .str "spoofed"), ("campo", .num 7)])) (some 5), "gpt-4"⟩
          (some 5)))) :=
  (metadata_always_overwritten
    ⟨0, 2, .response (some (.obj [("_metadata", .str "spoofed"), ("campo", .num 7)])) (some 5), "gpt-4"⟩
    "texto" none [("_metadata", .str "spoofed"), ("campo", .num 7)] (some 5) rfl).1

/-- Claim C8: every successful extract_structured_data call returns an
object-shaped record whose _metadata entry holds a processing_time number
that is non-negative whenever the second clock reading is not earlier than
the first. -/
theorem structured_record_shape (env : OpenAIEnv) (text : String)
    (schema : Option JValue) (v : JValue)
    (hclock : env.t1 ≤ env.t2)
    (hok : extract_structured_data env text schema = .ok v) :
    ∃ fs, v = .obj fs ∧
      ∃ m, lookupField fs "_metadata" = some (.obj m) ∧
        ∃ pt : Int, lookupField m "processing_time" = some (.num pt) ∧ 0 ≤ pt := by
  rcases houtcome : env.outcome with detail | ⟨parsed, usage⟩
  · simp only [extract_structured_data, houtcome] at hok
    exact Except.noConfusion hok
  · cases parsed with
    | none =>
      simp only [extract_structured_data, houtcome] at hok
      exact Except.noConfusion hok
    | some w =>
      cases w with
      | obj fields =>
        simp only [extract_structured_data, houtcome, Except.ok.injEq] at hok
        cases usage with
        | none =>
          refine ⟨setField fields "_metadata" (serviceMetadata env none), hok.symm,
            [("processing_time", JValue.num (env.t2 - env.t1)),
             ("model_used", JValue.str env.model),
             ("tokens_used", JValue.null)],
            lookupField_setField_self fields _ _,
            env.t2 - env.t1, rfl, by omega⟩
        | some ntok =>
          refine ⟨setField fields "_metadata" (serviceMetadata env (some ntok)), hok.symm,
            [("processing_time", JValue.num (env.t2 - env.t1)),
             ("model_used", JValue.str env.model),
             ("tokens_used", JValue.num ntok)],
            lookupField_setField_self fields _ _,
            env.t2 - env.t1, rfl, by omega⟩
      | null =>
        simp only [extract_structured_data, houtcome] at hok
        exact Except.noConfusion hok
      | bool b =>
        simp only [extract_structured_data, houtcome] at hok
        exact Except.noConfusion hok
      | num n =>
        simp only [extract_structured_data, houtcome] at hok
        exact Except.noConfusion hok
      | str s =>
        simp only [extract_structured_data, houtcome] at hok
        exact Except.noConfusion hok
      | arr xs =>
        simp only [extract_structured_data, houtcome] at hok
        exact Except.noConfusion hok

/-- Claim C8 witness: a concrete successful call returns an object whose
_metadata carries a non-negative processing_time. -/
theorem structured_record_shape_witness :
    ∃ fs, JValue.obj (setField [("campo", JValue.str "valor")] "_metadata"
        (serviceMetadata ⟨0, 3, .response (some (.obj [("campo", .str "valor")])) (some 9), "gpt-4"⟩ (some 9))) =
      JValue.obj fs ∧
      ∃ m, lookupField fs "_metadata" = some (.obj m) ∧
        ∃ pt : Int, lookupField m "processing_time" = some (.num pt) ∧ 0 ≤ pt :=
  structured_record_shape
    ⟨0, 3, .response (some (.obj [("campo", .str "valor")])) (some 9), "gpt-4"⟩
    "texto" none
    (JValue.obj (setField [("campo", JValue.str "valor")] "_metadata"
      (serviceMetadata ⟨0, 3, .response (some (.obj [("campo", .str "valor")])) (some 9), "gpt-4"⟩ (some 9))))
    (by decide) rfl

/-- Claim C5: a service response that parses as JSON but is not object-shaped
at the top level makes extract_structured_data fail with OpenAIError
(ExtractionServiceError) — the same error kind produced when the content is
not parseable as JSON at all. -/
theorem non_object_root_same_error_kind (env : OpenAIEnv) (text : String)
    (schema : Option JValue) (v : JValue) (usage : Option Int)
    (hresp : env.outcome = .response (some v) usage)
    (hno : jIsObj v = false) :
    (∃ m, extract_structured_data env text schema = .error (.openAIError m)) ∧
    ∀ (env2 : OpenAIEnv) (text2 : String) (schema2 : Option JValue) (usage2 : Option Int),
      env2.outcome = .response none usage2 →
      ∃ m2, extract_structured_data env2 text2 schema2 = .error (.openAIError m2) := by
  constructor
  · refine ⟨"Error comunicándose con OpenAI: TypeError en asignación de _metadata", ?_⟩
    cases v with
    | obj fs => exact absurd hno (by simp [jIsObj])
    | null => simp only [extract_structured_data, hresp]
    | bool b => simp only [extract_structured_data, hresp]
    | num n => simp only [extract_structured_data, hresp]
    | str s => simp only [extract_structured_data, hresp]
    | arr xs => simp only [extract_structured_data, hresp]
  · intro env2 text2 schema2 usage2 h2
    refine ⟨"Respuesta inválida de OpenAI: contenido no es JSON", ?_⟩
    simp only [extract_structured_data, h2]

/-- Claim C5 witness: a response whose content parses to the JSON list [] is
rejected with an OpenAIError. -/
theorem non_object_root_same_error_kind_witness :
    ∃ m, extract_structured_data ⟨0, 1, .response (some (.arr [])) none, "gpt-4"⟩
        "texto" none = .error (.openAIError m) :=
  (non_object_root_same_error_kind ⟨0, 1, .response (some (.arr [])) none, "gpt-4"⟩
    "texto" none (.arr []) none rfl rfl).1

/-- Claim C4: class OpenAIService defines no extract_personal_data method —
only the general-purpose extract_structured_data exists — so the calls
openai_service.extract_personal_data(...) in app/api/routes.py hit a missing
attribute instead of a second extraction variant. -/
theorem extract_personal_data_not_defined :
    "extract_personal_data" ∉ openAIServiceMethods ∧
    "extract_structured_data" ∈ openAIServiceMethods := by
  decide

/-- Claim C3: requesting a template absent from the templates directory makes
generate_excel_report fail — but with an ExcelGenerationError wrapping the
message, NOT a TemplateNotFoundError, because the blanket except handler
re-wraps the in-flight TemplateNotFoundError; no artifact file is written. -/
theorem template_miss_wrapped_error :
    generate_excel_report ⟨[], false, true, true, "20240101_120000"⟩ [] (some "missing") =
      .error (.excelGenerationError "Error generando archivo Excel: Plantilla no encontrada: missing")
    ∧ files_written ⟨[], false, true, true, "20240101_120000"⟩ [] (some "missing") = [] :=
  ⟨rfl, rfl⟩

lemma cellsOfRows_append (a b : List (String × String × String)) :
    ∀ r, cellsOfRows r (a ++ b) = cellsOfRows r a ++ cellsOfRows (r + a.length) b := by
  induction a with
  | nil =>
    intro r
    simp [cellsOfRows]
  | cons hd tl ih =>
    intro r
    rcases hd with ⟨k, v, t⟩
    show ⟨r, 1, k⟩ :: ⟨r, 2, v⟩ :: ⟨r, 3, t⟩ :: cellsOfRows (r + 1) (tl ++ b) = _
    rw [ih (r + 1)]
    have harith : r + 1 + tl.length = r + (tl.length + 1) := by omega
    rw [harith]
    rfl

lemma add_dict_data_spec (parent : String) (sub : List (String × JValue)) :
    ∀ r, add_dict_data parent sub r =
      (cellsOfRows r (sub.map fun c => (parent ++ "." ++ c.1, pyStr c.2, typeName c.2)),
       r + sub.length) := by
  induction sub with
  | nil =>
    intro r
    simp [add_dict_data, cellsOfRows]
  | cons hd tl ih =>
    intro r
    rcases hd with ⟨k, v⟩
    show (⟨r, 1, parent ++ "." ++ k⟩ :: ⟨r, 2, pyStr v⟩ :: ⟨r, 3, typeName v⟩ ::
        (add_dict_data parent tl (r + 1)).1, (add_dict_data parent tl (r + 1)).2) = _
    rw [ih (r + 1)]
    have harith : r + 1 + tl.length = r + (tl.length + 1) := by omega
    simp [cellsOfRows, harith]

lemma add_list_data_spec (parent : String) (xs : List JValue) :
    ∀ r i, add_list_data parent xs r i =
      (cellsOfRows r ((xs.enumFrom i).map fun c =>
        (parent ++ "[" ++ toString c.1 ++ "]", pyStr c.2, typeName c.2)),
       r + xs.length) := by
  induction xs with
  | nil =>
    intro r i
    simp [add_list_data, cellsOfRows, List.enumFrom]
  | cons hd tl ih =>
    intro r i
    show (⟨r, 1, parent ++ "[" ++ toString i ++ "]"⟩ :: ⟨r, 2, pyStr hd⟩ :: ⟨r, 3, typeName hd⟩ ::
        (add_list_data parent tl (r + 1) (i + 1)).1, (add_list_data parent tl (r + 1) (i + 1)).2) = _
    rw [ih (r + 1) (i + 1)]
    have harith : r + 1 + tl.length = r + (tl.length + 1) := by omega
    simp [cellsOfRows, List.enumFrom, harith]

lemma populate_loop_spec (fields : List (String × JValue)) :
    ∀ r, populate_loop fields r =
      (cellsOfRows r (specFlatten fields), r + (specFlatten fields).length) := by
  induction fields with
  | nil =>
    intro r
    simp [populate_loop, specFlatten, cellsOfRows]
  | cons hd tl ih =>
    intro r
    rcases hd with ⟨k, v⟩
    by_cases hu : strStartsWith k "_"
    · have hloop : populate_loop ((k, v) :: tl) r = populate_loop tl r := by
        simp [populate_loop, hu]
      have hflat : specFlatten ((k, v) :: tl) = specFlatten tl := by
        simp [specFlatten, hu]
      rw [hloop, hflat, ih r]
    · cases v with
      | obj sub =>
        have hflat : specFlatten ((k, JValue.obj sub) :: tl) =
            (sub.map fun c => (k ++ "." ++ c.1, pyStr c.2, typeName c.2)) ++ specFlatten tl := by
          simp [specFlatten, hu]
        have hloop : populate_loop ((k, JValue.obj sub) :: tl) r =
            ((add_dict_data k sub r).1 ++ (populate_loop tl (add_dict_data k sub r).2).1,
             (populate_loop tl (add_dict_data k sub r).2).2) := by
          simp [populate_loop, hu]
        rw [hloop, add_dict_data_spec k sub r]
        show (cellsOfRows r _ ++ (populate_loop tl (r + sub.length)).1,
          (populate_loop tl (r + sub.length)).2) = _
        rw [ih (r + sub.length), hflat, cellsOfRows_append]
        simp [List.length_map, List.length_append, Nat.add_assoc]
      | arr xs =>
        have hflat : specFlatten ((k, JValue.arr xs) :: tl) =
            ((xs.enum).map fun c => (k ++ "[" ++ toString c.1 ++ "]", pyStr c.2, typeName c.2))
              ++ specFlatten tl := by
          simp [specFlatten, hu]
        have hloop : populate_loop ((k, JValue.arr xs) :: tl) r =
            ((add_list_data k xs r 0).1 ++ (populate_loop tl (add_list_data k xs r 0).2).1,
             (populate_loop tl (add_list_data k xs r 0).2).2) := by
          simp [populate_loop, hu]
        rw [hloop, add_list_data_spec k xs r 0]
        show (cellsOfRows r _ ++ (populate_loop tl (r + xs.length)).1,
          (populate_loop tl (r + xs.length)).2) = _
        rw [ih (r + xs.length), hflat, cellsOfRows_append]
        have henum : xs.enum = xs.enumFrom 0 := rfl
        simp [henum, List.length_map, List.length_append, Nat.add_assoc, List.enumFrom_length]
      | null =>
        have hflat : specFlatten ((k, JValue.null) :: tl) =
            (k, pyStr JValue.null, typeName JValue.null) :: specFlatten tl := by
          simp [specFlatten, hu]
        have hloop : populate_loop ((k, JValue.null) :: tl) r =
            ([⟨r, 1, k⟩, ⟨r, 2, pyStr JValue.null⟩, ⟨r, 3, typeName JValue.null⟩]
              ++ (populate_loop tl (r + 1)).1, (populate_loop tl (r + 1)).2) := by
          simp [populate_loop, hu]
        rw [hloop, ih (r + 1), hflat]
        simp [cellsOfRows, Nat.add_assoc, Nat.add_comm 1]
      | bool b =>
        have hflat : specFlatten ((k, JValue.bool b) :: tl) =
            (k, pyStr (JValue.bool b), typeName (JValue.bool b)) :: specFlatten tl := by
          simp [specFlatten, hu]
        have hloop : populate_loop ((k, JValue.bool b) :: tl) r =
            ([⟨r, 1, k⟩, ⟨r, 2, pyStr (JValue.bool b)⟩, ⟨r, 3, typeName (JValue.bool b)⟩]
              ++ (populate_loop tl (r + 1)).1, (populate_loop tl (r + 1)).2) := by
          simp [populate_loop, hu]
        rw [hloop, ih (r + 1), hflat]
        simp [cellsOfRows, Nat.add_assoc, Nat.add_comm 1]
      | num n =>
        have hflat : specFlatten ((k, JValue.num n) :: tl) =
            (k, pyStr (JValue.num n), typeName (JValue.num n)) :: specFlatten tl := by
          simp [specFlatten, hu]
        have hloop : populate_loop ((k, JValue.num n) :: tl) r =
            ([⟨r, 1, k⟩, ⟨r, 2, pyStr (JValue.num n)⟩, ⟨r, 3, typeName (JValue.num n)⟩]
              ++ (populate_loop tl (r + 1)).1, (populate_loop tl (r + 1)).2) := by
          simp [populate_loop, hu]
        rw [hloop, ih (r + 1), hflat]
        simp [cellsOfRows, Nat.add_assoc, Nat.add_comm 1]
      | str s =>
        have hflat : specFlatten ((k, JValue.str s) :: tl) =
            (k, pyStr (JValue.str s), typeName (JValue.str s)) :: specFlatten tl := by
          simp [specFlatten, hu]
        have hloop : populate_loop ((k, JValue.str s) :: tl) r =
            ([⟨r, 1, k⟩, ⟨r, 2, pyStr (JValue.str s)⟩, ⟨r, 3, typeName (JValue.str s)⟩]
              ++ (populate_loop tl (r + 1)).1, (populate_loop tl (r + 1)).2) := by
          simp [populate_loop, hu]
        rw [hloop, ih (r + 1), hflat]
        simp [cellsOfRows, Nat.add_assoc, Nat.add_comm 1]

lemma metaPairCells_cols : ∀ (r : Nat) (fs : List (String × JValue)),
    ∀ c ∈ metaPairCells r fs, c.col = 5 ∨ c.col = 6 := by
  intro r fs
  induction fs generalizing r with
  | nil =>
    intro c hc
    cases hc
  | cons kv fs ih =>
    intro c hc
    rcases List.mem_cons.mp hc with rfl | hc2
    · exact Or.inl rfl
    · rcases List.mem_cons.mp hc2 with rfl | hc3
      · exact Or.inr rfl
      · exact ih (r + 1) c hc3

lemma cellsOfRows_cols : ∀ (r : Nat) (rows : List (String × String × String)),
    ∀ c ∈ cellsOfRows r rows, c.col = 1 ∨ c.col = 2 ∨ c.col = 3 := by
  intro r rows
  induction rows generalizing r with
  | nil =>
    intro c hc
    cases hc
  | cons row rows ih =>
    rcases row with ⟨k, v, t⟩
    intro c hc
    rcases List.mem_cons.mp hc with rfl | hc2
    · exact Or.inl rfl
    · rcases List.mem_cons.mp hc2 with rfl | hc3
      · exact Or.inr (Or.inl rfl)
      · rcases List.mem_cons.mp hc3 with rfl | hc4
        · exact Or.inr (Or.inr rfl)
        · exact ih (r + 1) c hc4

lemma add_metadata_ok_of {mv : Option JValue} (h : metadata_ok mv = true) :
    ∃ cells, add_metadata mv = .ok cells ∧ ∀ c ∈ cells, c.col = 5 ∨ c.col = 6 := by
  cases mv with
  | none =>
    refine ⟨[], rfl, ?_⟩
    intro c hc
    cases hc
  | some m =>
    by_cases ht : pyTruthy m = false
    · refine ⟨[], ?_, ?_⟩
      · simp [add_metadata, ht]
      · intro c hc
        cases hc
    · have hobj : jIsObj m = true := by
        have := h
        simp only [metadata_ok, ht, if_false] at this
        exact this
      cases m with
      | obj fs =>
        refine ⟨⟨1, 5, "Metadatos del Procesamiento"⟩ :: metaPairCells 2 fs, ?_, ?_⟩
        · simp [add_metadata, ht]
        · intro c hc
          rcases List.mem_cons.mp hc with rfl | hc2
          · exact Or.inl rfl
          · exact metaPairCells_cols 2 fs c hc2
      | null => cases hobj
      | bool b => cases hobj
      | num n => cases hobj
      | str s => cases hobj
      | arr xs => cases hobj

lemma specFlatten_underscore (m : JValue) (fields : List (String × JValue)) :
    specFlatten (("_metadata", m) :: fields) = specFlatten fields := by
  have h : strStartsWith "_metadata" "_" = true := by decide
  simp [specFlatten, h]

/-- Claim C6 (amended): for any record whose _metadata entry (if present) is
well-formed, the population step writes the metadata cells in the side
region of columns 5–6 followed by exactly the flat data rows in columns 1–3:
one row per scalar, one row per IMMEDIATE child of a nested mapping under a
dotted key (a deeper child is emitted stringified, not expanded to its
leaves), one row per list element under an indexed key, and no row for
_metadata or any underscore-prefixed key; the spec's example record yields
exactly the five rows a, b.x, b.y, c[0], c[1]. -/
theorem populate_rows_spec (wb : Workbook) (data : List (String × JValue))
    (h : metadata_ok (lookupField data "_metadata") = true) :
    (∃ metaCells,
      populate_workbook wb data =
        .ok (metaCells ++ cellsOfRows (if wb.hasHeader then 2 else 1) (specFlatten data)) ∧
      ∀ c ∈ metaCells, c.col = 5 ∨ c.col = 6) ∧
    (∀ c ∈ cellsOfRows (if wb.hasHeader then 2 else 1) (specFlatten data),
      c.col = 1 ∨ c.col = 2 ∨ c.col = 3) ∧
    (∀ m, specFlatten (("_metadata", m) :: data) = specFlatten data) ∧
    specFlatten [("a", .num 1), ("b", .obj [("x", .num 2), ("y", .num 3)]),
        ("c", .arr [.num 10, .num 20])] =
      [("a", "1", "int"), ("b.x", "2", "int"), ("b.y", "3", "int"),
       ("c[0]", "10", "int"), ("c[1]", "20", "int")] := by
  refine ⟨?_, cellsOfRows_cols _ _, fun m => specFlatten_underscore m data, by rfl⟩
  rcases add_metadata_ok_of h with ⟨mc, hmc, hcols⟩
  refine ⟨mc, ?_, hcols⟩
  simp [populate_workbook, hmc, populate_loop_spec data]

/-- Claim C6 witness: a record carrying a well-formed _metadata dict and one
scalar field populates to side-region metadata cells plus the flat rows. -/
theorem populate_rows_spec_witness :
    ∃ metaCells,
      populate_workbook ⟨true⟩
          [("_metadata", JValue.obj [("model_used", JValue.str "gpt-4")]), ("a", JValue.num 1)] =
        .ok (metaCells ++ cellsOfRows 2 (specFlatten
          [("_metadata", JValue.obj [("model_used", JValue.str "gpt-4")]), ("a", JValue.num 1)])) ∧
      ∀ c ∈ metaCells, c.col = 5 ∨ c.col = 6 :=
  ((populate_rows_spec ⟨true⟩
    [("_metadata", JValue.obj [("model_used", JValue.str "gpt-4")]), ("a", JValue.num 1)]
    (by decide)).1)

/-- Claim C6 counterexample: a mapping nested two levels deep is NOT expanded
to its leaves — the record b -> x -> y -> 2 produces the single data row with
key "b.x" and the stringified inner dict as its value, and no cell anywhere
carries the leaf path "b.x.y" the claim requires. -/
theorem nested_mapping_not_expanded :
    populate_workbook ⟨false⟩ [("b", JValue.obj [("x", JValue.obj [("y", JValue.num 2)])])] =
      .ok [⟨1, 1, "b.x"⟩, ⟨1, 2, "\x7b\x27y\x27: 2\x7d"⟩, ⟨1, 3, "dict"⟩]
    ∧ (([⟨1, 1, "b.x"⟩, ⟨1, 2, "\x7b\x27y\x27: 2\x7d"⟩, ⟨1, 3, "dict"⟩] : List CellWrite).all
        (fun c => c.val ≠ "b.x.y")) = true :=
  ⟨rfl, by decide⟩

/-- Claim C1 (code bug evaluation): a fully valid run requested with
output_format "excel" never enters a render stage — the trace holds only the
validation, text-extraction and extraction-service calls, no renderExcel —
and the returned result carries no artifact path, because the whole Excel
block of Orchestrator.process_file is commented out in the source. -/
theorem excel_request_renders_nothing :
    process_file
        ⟨some [PageResult.ok "contenido"],
         ⟨0, 1, .response (some (.obj [("campo", .str "v")])) (some 5), "gpt-4"⟩, 10, 12⟩
        (some "doc.pdf") (some "plantilla") "excel" =
      (Except.ok
        { data := JValue.obj [("campo", JValue.str "v"),
            ("_metadata", JValue.obj [("processing_time", JValue.num 1),
              ("model_used", JValue.str "gpt-4"), ("tokens_used", JValue.num 5)])]
        , processing_time := 2
        , filename := some "doc.pdf"
        , excelPath := none },
       [StageCall.validatePdf, StageCall.extractText, StageCall.openaiRequest])
    ∧ StageCall.renderExcel ∉
        [StageCall.validatePdf, StageCall.extractText, StageCall.openaiRequest] :=
  ⟨rfl, by decide⟩

/-- Claim C9: bytes failing the PDF validation pre-check make process_file
fail at the validation stage with a PDFProcessingError before anything else
runs: the trace holds only the validation call — no text extraction and no
extraction-service request is ever attempted. -/
theorem invalid_pdf_fails_before_downstream (env : OrchEnv)
    (filename templateName : Option String) (outputFormat : String)
    (h : env.pdf = none) :
    process_file env filename templateName outputFormat =
      (.error (.pdfProcessingError "El archivo no es un PDF válido"), [.validatePdf])
    ∧ StageCall.extractText ∉ (process_file env filename templateName outputFormat).2
    ∧ StageCall.openaiRequest ∉ (process_file env filename templateName outputFormat).2 := by
  have hres : process_file env filename templateName outputFormat =
      (.error (.pdfProcessingError "El archivo no es un PDF válido"), [.validatePdf]) := by
    simp [process_file, validate_pdf, h]
  refine ⟨hres, ?_, ?_⟩
  · rw [hres]
    decide
  · rw [hres]
    decide

/-- Claim C9 witness: unopenable bytes stop the orchestration at validation
with only the validation call in the trace. -/
theorem invalid_pdf_fails_before_downstream_witness :
    process_file ⟨none, ⟨0, 0, .apiFailure "x", "gpt-4"⟩, 0, 0⟩ none none "json" =
      (.error (.pdfProcessingError "El archivo no es un PDF válido"), [.validatePdf]) :=
  (invalid_pdf_fails_before_downstream ⟨none, ⟨0, 0, .apiFailure "x", "gpt-4"⟩, 0, 0⟩
    none none "json" rfl).1
